import Mathlib

/-!
Verification of the generation-rotating file stream (`src/vtestream-file.h`).

Shallow embedding choices:
* A byte is a `Nat`; a physical store (the contents of an open temp file) is a
  `List Nat`.  An unallocated file descriptor (`fd == 0` in the C code) is
  `none`; an allocated descriptor holding file contents `f` is `some f`.
* `gsize` values (offsets, lengths, `head`) are `Nat` — the stream is the
  spec's idealized, monotonically growing byte sequence.  The one place where
  unsigned wrap-around of `gsize` subtraction is observable is the file
  position handed to `pread`/`pwrite`: the C code computes
  `offset - stream->offset[i]` in `gsize`, and when the minuend is smaller the
  result wraps to a huge value at which `pread`/`pwrite` transfer no bytes.
  We therefore compute those positions in `Int` and let a negative position
  transfer nothing, which matches the observable C behaviour.
* `_xpread` reads as much as is physically available (its retry loop continues
  until the request is satisfied or the file is exhausted), so its pure model
  returns `(f.drop off).take len`.
* `_xpwrite`, in the ideal (failure-free) execution modelled by the stream
  operations, writes all of `data` at the given position, zero-filling any gap
  past the end of the file (`pwrite` on a sparse file).  The failure behaviour
  of `_xpwrite` (EINTR retry, one EINVAL truncate-and-retry) is modelled
  separately by `xpwriteGo` over an explicit oracle of syscall outcomes.
-/

/-- Model of `ftruncate` on file contents: the file is resized to exactly `n`
bytes, keeping a prefix and zero-filling any extension. -/
def truncFile (f : List Nat) (n : Nat) : List Nat :=
  f.take n ++ List.replicate (n - f.length) 0

/-- Model of `_xtruncate` (src/vtestream-file.h:52): no-op on an absent fd,
otherwise resizes the file to `n` bytes (the EINTR retry loop always ends in a
successful `ftruncate` in the ideal execution). -/
def xtruncate (fd : Option (List Nat)) (n : Nat) : Option (List Nat) :=
  match fd with
  | none => none
  | some f => some (truncFile f n)

/-- Bytes delivered by the `pread` loop of `_xpread` on file contents `f` at
position `off`: everything available from `off`, capped at `len`.  A negative
`off` models a wrapped-around huge `gsize` position, at which `pread` delivers
nothing. -/
def preadAll (f : List Nat) (off : Int) (len : Nat) : List Nat :=
  if off < 0 then [] else (f.drop off.toNat).take len

/-- Model of `_xpread` (src/vtestream-file.h:65): an absent fd delivers no
bytes; otherwise the loop delivers `preadAll`. -/
def xpread (fd : Option (List Nat)) (off : Int) (len : Nat) : List Nat :=
  match fd with
  | none => []
  | some f => preadAll f off len

/-- One `pwrite` of `d` at position `off` into file contents `f`: bytes before
`off` are kept (zero-filling if the file is shorter than `off`), `d` overwrites
`[off, off + d.length)`, and any old bytes past that remain. -/
def writeAt (f d : List Nat) (off : Nat) : List Nat :=
  (f.take off ++ List.replicate (off - f.length) 0) ++ d ++ f.drop (off + d.length)

/-- Model of `_xpwrite` (src/vtestream-file.h:91) in the ideal, failure-free
execution: with no fd nothing is stored (the `while` loop is skipped when
`len == 0`; with `len != 0` and no fd nothing can be persisted); a zero-length
write never enters the loop; a negative (wrapped `gsize`) position makes every
`pwrite` — and the rescue `_xtruncate` — fail, leaving the file unchanged;
otherwise the whole buffer is written at `off`. -/
def xpwrite (fd : Option (List Nat)) (d : List Nat) (off : Int) : Option (List Nat) :=
  match fd with
  | none => none
  | some f => if d = [] then some f else if off < 0 then some f else some (writeAt f d off.toNat)

/-- The state of a `VteFileStream` (src/vtestream-file.h:147): `fd0`/`fd1` are
`fd[0]` (current generation, write head) and `fd[1]` (previous generation);
`offset0`/`offset1` are `offset[0]` (start of the current generation) and
`offset[1]` (start of the previous generation); `head` is the write head. -/
structure VteFileStream where
  fd0 : Option (List Nat)
  fd1 : Option (List Nat)
  offset0 : Nat
  offset1 : Nat
  head : Nat
deriving DecidableEq, Repr

/-- A freshly created stream (`g_object_new` zero-fills the struct): no fds,
all offsets 0. -/
def initStream : VteFileStream := ⟨none, none, 0, 0, 0⟩

/-- Model of `_vte_file_stream_reset` (src/vtestream-file.h:200): truncate both
stores to 0 (no-op when absent) and set `head = offset[0] = offset[1] = off`. -/
def vte_file_stream_reset (s : VteFileStream) (off : Nat) : VteFileStream :=
  { fd0 := xtruncate s.fd0 0, fd1 := xtruncate s.fd1 0,
    offset0 := off, offset1 := off, head := off }

/-- Model of `_vte_file_stream_ensure_fd0` (src/vtestream-file.h:185) in the
ideal execution: lazily allocate an empty current store (`_vte_mkstemp`). -/
def vte_file_stream_ensure_fd0 (s : VteFileStream) : VteFileStream :=
  match s.fd0 with
  | some _ => s
  | none => { s with fd0 := some [] }

/-- Model of `_vte_file_stream_append` (src/vtestream-file.h:211): ensure the
current store exists, write `d` at position `head - offset[0]` inside it, then
advance `head` by `d.length`. -/
def vte_file_stream_append (s : VteFileStream) (d : List Nat) : VteFileStream :=
  let s := vte_file_stream_ensure_fd0 s
  { s with fd0 := xpwrite s.fd0 d ((s.head : Int) - (s.offset0 : Int)),
           head := s.head + d.length }

/-- Model of `_vte_file_stream_read` (src/vtestream-file.h:223): fail when
`off < offset[1]`; read from the previous store first when `off < offset[0]`,
then continue from the current store; succeed exactly when the full `len`
bytes were delivered.  The returned value is the caller's buffer on success.
The source function never writes to the stream struct, so the embedding is a
pure observation of the state. -/
def vte_file_stream_read (s : VteFileStream) (off len : Nat) : Option (List Nat) :=
  if off < s.offset1 then none
  else if off < s.offset0 then
    let l := xpread s.fd1 ((off : Int) - (s.offset1 : Int)) len
    if len - l.length = 0 then some l
    else
      let l2 := xpread s.fd0 (((off + l.length : Nat) : Int) - (s.offset0 : Int)) (len - l.length)
      if (len - l.length) - l2.length = 0 then some (l ++ l2) else none
  else
    let l2 := xpread s.fd0 ((off : Int) - (s.offset0 : Int)) len
    if len - l2.length = 0 then some l2 else none

/-- Model of `_vte_file_stream_swap_fds` (src/vtestream-file.h:243). -/
def vte_file_stream_swap_fds (s : VteFileStream) : VteFileStream :=
  { s with fd0 := s.fd1, fd1 := s.fd0 }

/-- Model of `_vte_file_stream_truncate` (src/vtestream-file.h:251): when
`off < offset[1]` empty the previous store and move `offset[1]` down to `off`;
when `off < offset[0]` empty the current store, move `offset[0]` down to the
(possibly updated) `offset[1]` and swap the stores; otherwise shrink the
current store to `off - offset[0]`.  Finally `head := off`. -/
def vte_file_stream_truncate (s : VteFileStream) (off : Nat) : VteFileStream :=
  let s1 := if off < s.offset1 then
      { s with fd1 := xtruncate s.fd1 0, offset1 := off }
    else s
  let s2 := if off < s1.offset0 then
      vte_file_stream_swap_fds { s1 with fd0 := xtruncate s1.fd0 0, offset0 := s1.offset1 }
    else { s1 with fd0 := xtruncate s1.fd0 (off - s1.offset0) }
  { s2 with head := off }

/-- Model of `_vte_file_stream_new_page` (src/vtestream-file.h:272): rotate
generations — `offset[1] := offset[0]`, `offset[0] := head`, swap the stores,
truncate the repurposed current store to empty. -/
def vte_file_stream_new_page (s : VteFileStream) : VteFileStream :=
  let s := { s with offset1 := s.offset0, offset0 := s.head }
  let s := vte_file_stream_swap_fds s
  { s with fd0 := xtruncate s.fd0 0 }

/-- Model of `_vte_file_stream_head` (src/vtestream-file.h:283). -/
def vte_file_stream_head (s : VteFileStream) : Nat := s.head

/-- The public operations of the stream.  `read`, `head` and `write_contents`
never assign to the stream struct in the source, so they leave the model state
unchanged (`_vte_file_stream_write_contents` only moves file positions and
copies bytes out). -/
inductive VteOp where
  | reset (k : Nat)
  | append (d : List Nat)
  | read (off len : Nat)
  | truncate (k : Nat)
  | new_page
  | head
  | write_contents (off : Nat)
deriving DecidableEq, Repr

/-- Effect of one operation on the stream state. -/
def apply_op (s : VteFileStream) : VteOp → VteFileStream
  | .reset k => vte_file_stream_reset s k
  | .append d => vte_file_stream_append s d
  | .read _ _ => s
  | .truncate k => vte_file_stream_truncate s k
  | .new_page => vte_file_stream_new_page s
  | .head => s
  | .write_contents _ => s

/-- The state reached from a freshly created stream by a sequence of
operations. -/
def run (ops : List VteOp) : VteFileStream :=
  ops.foldl apply_op initStream

/-- Truncating any file to length 0 empties it. -/
lemma truncFile_zero (f : List Nat) : truncFile f 0 = [] := by
  simp [truncFile]

/-- Reading from an empty file delivers nothing. -/
lemma preadAll_nil (off : Int) (len : Nat) : preadAll [] off len = [] := by
  unfold preadAll
  split <;> simp

/-- A zero-length request delivers nothing. -/
lemma xpread_zero_len (fd : Option (List Nat)) (off : Int) : xpread fd off 0 = [] := by
  cases fd with
  | none => rfl
  | some f =>
    unfold xpread preadAll
    split <;> simp

/-- The read loop never delivers more than requested. -/
lemma preadAll_length_le (f : List Nat) (off : Int) (len : Nat) :
    (preadAll f off len).length ≤ len := by
  unfold preadAll
  by_cases hoff : off < 0
  · rw [if_pos hoff]
    simp
  · rw [if_neg hoff]
    exact le_trans (le_of_eq (List.length_take _ _)) (Nat.min_le_left _ _)

/-- The read loop never delivers more than requested, absent fd included. -/
lemma xpread_length_le (fd : Option (List Nat)) (off : Int) (len : Nat) :
    (xpread fd off len).length ≤ len := by
  cases fd with
  | none => simp [xpread]
  | some f => exact preadAll_length_le f off len

/-- The bookkeeping invariant of the stream state. -/
def StreamInv (s : VteFileStream) : Prop :=
  s.offset1 ≤ s.offset0 ∧ s.offset0 ≤ s.head

/-- Every stream operation preserves the bookkeeping invariant. -/
lemma streamInv_apply_op (s : VteFileStream) (op : VteOp) (h : StreamInv s) :
    StreamInv (apply_op s op) := by
  obtain ⟨h1, h2⟩ := h
  cases op with
  | reset k => exact ⟨le_rfl, le_rfl⟩
  | append d =>
    cases hf : s.fd0 with
    | none =>
      refine ⟨?_, ?_⟩ <;>
        simp [apply_op, vte_file_stream_append, vte_file_stream_ensure_fd0, hf] <;> omega
    | some f =>
      refine ⟨?_, ?_⟩ <;>
        simp [apply_op, vte_file_stream_append, vte_file_stream_ensure_fd0, hf] <;> omega
  | read off len => exact ⟨h1, h2⟩
  | truncate k =>
    by_cases hA : k < s.offset1
    · have hB : k < s.offset0 := lt_of_lt_of_le hA h1
      refine ⟨?_, ?_⟩ <;>
        simp [apply_op, vte_file_stream_truncate, vte_file_stream_swap_fds, hA, hB]
    · by_cases hB : k < s.offset0
      · refine ⟨?_, ?_⟩ <;>
          simp [apply_op, vte_file_stream_truncate, vte_file_stream_swap_fds, hA, hB] <;>
          omega
      · refine ⟨?_, ?_⟩ <;>
          simp [apply_op, vte_file_stream_truncate, vte_file_stream_swap_fds, hA, hB] <;>
          omega
  | new_page =>
    refine ⟨?_, ?_⟩ <;>
      simp [apply_op, vte_file_stream_new_page, vte_file_stream_swap_fds] <;> omega
  | head => exact ⟨h1, h2⟩
  | write_contents off => exact ⟨h1, h2⟩

/-- The bookkeeping invariant holds along any run. -/
lemma streamInv_foldl (ops : List VteOp) (s : VteFileStream) (h : StreamInv s) :
    StreamInv (ops.foldl apply_op s) := by
  induction ops generalizing s with
  | nil => exact h
  | cons op rest ih => exact ih _ (streamInv_apply_op s op h)

/-- Every reachable state satisfies the bookkeeping invariant. -/
lemma streamInv_run (ops : List VteOp) : StreamInv (run ops) :=
  streamInv_foldl ops initStream ⟨le_rfl, le_rfl⟩

/-- C2: the predicate `offset_previous ≤ offset_current ≤ head` (fields
`offset[1]`, `offset[0]`, `head`) holds in every state reachable from the
initial state by any sequence of the stream operations. -/
theorem claim_C2 (ops : List VteOp) :
    (run ops).offset1 ≤ (run ops).offset0 ∧ (run ops).offset0 ≤ (run ops).head :=
  streamInv_run ops

/-- C4: `new_page` (rotate) sets `offset[1]` to the old `offset[0]`, sets
`offset[0]` to `head`, swaps the two store handles, empties the store that is
repurposed as the new current one, and leaves `head` and the bytes of the new
previous generation (the old current store) unchanged. -/
theorem claim_C4 (s : VteFileStream) :
    (vte_file_stream_new_page s).offset1 = s.offset0 ∧
    (vte_file_stream_new_page s).offset0 = s.head ∧
    (vte_file_stream_new_page s).head = s.head ∧
    (vte_file_stream_new_page s).fd1 = s.fd0 ∧
    (vte_file_stream_new_page s).fd0 = Option.map (fun _ => ([] : List Nat)) s.fd1 := by
  cases h : s.fd1 with
  | none =>
    refine ⟨rfl, rfl, rfl, rfl, ?_⟩
    simp [vte_file_stream_new_page, vte_file_stream_swap_fds, xtruncate, h]
  | some f =>
    refine ⟨rfl, rfl, rfl, rfl, ?_⟩
    simp [vte_file_stream_new_page, vte_file_stream_swap_fds, xtruncate, truncFile, h]

/-- C5: in every reachable state, a read at an offset strictly below
`offset[1]` fails, whatever the requested length.  (The source's read never
writes to the stream struct, so it is embedded as a pure observation: the
state is unchanged by construction.) -/
theorem claim_C5 (ops : List VteOp) (off len : Nat) (h : off < (run ops).offset1) :
    vte_file_stream_read (run ops) off len = none := by
  unfold vte_file_stream_read
  rw [if_pos h]

/-- Witness for C5 at the reachable state `reset(5)` and offset 3. -/
theorem claim_C5_witness :
    3 < (run [VteOp.reset 5]).offset1 ∧
    vte_file_stream_read (run [VteOp.reset 5]) 3 2 = none :=
  ⟨by decide, claim_C5 [VteOp.reset 5] 3 2 (by decide)⟩

/-- A zero-length read succeeds (returning the empty buffer) at every offset
at or above `offset[1]`. -/
lemma read_zero_len (s : VteFileStream) (off : Nat) (h : s.offset1 ≤ off) :
    vte_file_stream_read s off 0 = some [] := by
  unfold vte_file_stream_read
  rw [if_neg (by omega)]
  by_cases h0 : off < s.offset0
  · rw [if_pos h0]
    simp [xpread_zero_len]
  · rw [if_neg h0]
    simp [xpread_zero_len]

/-- C9: in every reachable state, a zero-length read succeeds at every offset
at or above `offset[1]`, including offsets at or beyond `head`. -/
theorem claim_C9 (ops : List VteOp) (off : Nat) (h : (run ops).offset1 ≤ off) :
    vte_file_stream_read (run ops) off 0 = some [] :=
  read_zero_len (run ops) off h

/-- Witness for C9: in the initial state (head 0), the zero-length read at
offset 7 — far beyond `head` — succeeds. -/
theorem claim_C9_witness :
    (run []).offset1 ≤ 7 ∧ vte_file_stream_read (run []) 7 0 = some [] :=
  ⟨by decide, claim_C9 [] 7 (by decide)⟩

/-- The state reached by the concrete trace of C3:
`append "AAAA"; new_page; append "BBBB"; new_page; append "CCCC"` from a fresh
stream (byte values are the ASCII codes). -/
def c3Trace : VteFileStream :=
  run [.append [65,65,65,65], .new_page, .append [66,66,66,66], .new_page,
       .append [67,67,67,67]]

/-- C3 counterexample: after the trace, `offset[1]` is 4, not 8, and
`read(4, 4)` succeeds (returning "BBBB"), so the claimed conjunction is false. -/
theorem claim_C3_counterexample :
    ¬ (c3Trace.offset1 = 8 ∧ vte_file_stream_read c3Trace 4 4 = none ∧
       vte_file_stream_read c3Trace 8 4 = some [67,67,67,67]) := by
  decide

/-- C3 amended: after the trace, `offset[1] = 4` and `offset[0] = 8` with
`head = 12`; `read(0, 4)` fails (the "AAAA" generation was evicted by the
second rotate), `read(4, 4)` succeeds returning "BBBB" (the previous
generation), and `read(8, 4)` succeeds returning "CCCC". -/
theorem claim_C3_amended :
    c3Trace.offset1 = 4 ∧ c3Trace.offset0 = 8 ∧ c3Trace.head = 12 ∧
    vte_file_stream_read c3Trace 0 4 = none ∧
    vte_file_stream_read c3Trace 4 4 = some [66,66,66,66] ∧
    vte_file_stream_read c3Trace 8 4 = some [67,67,67,67] := by
  decide

/-- C7 counterexample: after `reset(5)`, `head` is 5 as claimed, but the
zero-length read at offset 5 ≥ 5 succeeds, so "every subsequent read at
`offset ≥ k` fails" is false as stated. -/
theorem claim_C7_counterexample :
    vte_file_stream_head (vte_file_stream_reset initStream 5) = 5 ∧
    ¬ (vte_file_stream_read (vte_file_stream_reset initStream 5) 5 0 = none) := by
  decide

/-- C7 amended: `reset(k)` sets `head`, `offset[0]` and `offset[1]` to `k`,
and every subsequent read of at least one byte at an offset `≥ k` fails until
new data is appended. -/
theorem claim_C7_amended (s : VteFileStream) (k : Nat) :
    vte_file_stream_head (vte_file_stream_reset s k) = k ∧
    (vte_file_stream_reset s k).offset0 = k ∧
    (vte_file_stream_reset s k).offset1 = k ∧
    (∀ off len, k ≤ off → 1 ≤ len →
      vte_file_stream_read (vte_file_stream_reset s k) off len = none) := by
  refine ⟨rfl, rfl, rfl, ?_⟩
  intro off len hk hl
  unfold vte_file_stream_read
  rw [if_neg (by simp [vte_file_stream_reset]; omega),
      if_neg (by simp [vte_file_stream_reset]; omega)]
  cases h : s.fd0 with
  | none =>
    simp [vte_file_stream_reset, xtruncate, xpread, h]
    omega
  | some f =>
    simp [vte_file_stream_reset, xtruncate, xpread, truncFile_zero, preadAll_nil, h]
    omega

/-- Witness for C7 amended at `reset(2)`, reading 1 byte at offset 3. -/
theorem claim_C7_amended_witness :
    2 ≤ 3 ∧ 1 ≤ 1 ∧
    vte_file_stream_read (vte_file_stream_reset initStream 2) 3 1 = none :=
  ⟨by decide, by decide,
   (claim_C7_amended initStream 2).2.2.2 3 1 (by decide) (by decide)⟩

/-- Outcome of one `pwrite` call inside the `_xpwrite` loop
(src/vtestream-file.h:91): `ok n` — the call returned `n` (bytes written,
`ok 0` is the `ret == 0` break); `eintr` — failed with `EINTR`; `einval` —
failed with `EINVAL` (the "seeking past end of file" class rescued by
`_xtruncate`); `other` — failed with any other errno. -/
inductive WriteStep where
  | ok (n : Nat)
  | eintr
  | einval
  | other
deriving DecidableEq, Repr

/-- Model of the `_xpwrite` loop over an explicit finite trace of `pwrite`
outcomes.  Arguments mirror the C locals: remaining oracle, file contents,
remaining buffer, current position, and the `truncated` flag.  The result is
the final file contents together with the list of offsets passed to
`_xtruncate` (the forward truncations performed).  The loop ends when the
buffer is exhausted, on `ret == 0`, on a non-`EINTR`/`EINVAL` error, on a
second `EINVAL`, or when the outcome trace runs out. -/
def xpwriteGo : List WriteStep → List Nat → List Nat → Nat → Bool → List Nat × List Nat
  | _, f, [], _, _ => (f, [])
  | [], f, _ :: _, _, _ => (f, [])
  | .ok n :: o, f, d :: ds, off, t =>
      if n = 0 then (f, [])
      else
        xpwriteGo o (writeAt f ((d :: ds).take (min n (d :: ds).length)) off)
          ((d :: ds).drop (min n (d :: ds).length)) (off + min n (d :: ds).length) t
  | .eintr :: o, f, d :: ds, off, t => xpwriteGo o f (d :: ds) off t
  | .einval :: o, f, d :: ds, off, t =>
      if t then (f, [])
      else
        ((xpwriteGo o (truncFile f off) (d :: ds) off true).1,
          off :: (xpwriteGo o (truncFile f off) (d :: ds) off true).2)
  | .other :: _, f, _ :: _, _, _ => (f, [])

/-- Once the `truncated` flag is set, the loop never truncates again. -/
lemma xpwriteGo_true_truncs (o : List WriteStep) (f d : List Nat) (off : Nat) :
    (xpwriteGo o f d off true).2 = [] := by
  induction o generalizing f d off with
  | nil => cases d <;> rfl
  | cons st o ih =>
    cases d with
    | nil => cases st <;> rfl
    | cons x ds =>
      cases st with
      | ok n =>
        by_cases hn : n = 0
        · simp [xpwriteGo, hn]
        · simp only [xpwriteGo, if_neg hn]
          exact ih _ _ _
      | eintr => exact ih _ _ _
      | einval => simp [xpwriteGo]
      | other => rfl

/-- The loop performs at most one truncation. -/
lemma xpwriteGo_truncs_le_one (o : List WriteStep) (f d : List Nat) (off : Nat) :
    (xpwriteGo o f d off false).2.length ≤ 1 := by
  induction o generalizing f d off with
  | nil => cases d <;> simp [xpwriteGo]
  | cons st o ih =>
    cases d with
    | nil => cases st <;> simp [xpwriteGo]
    | cons x ds =>
      cases st with
      | ok n =>
        by_cases hn : n = 0
        · simp [xpwriteGo, hn]
        · simp only [xpwriteGo, if_neg hn]
          exact ih _ _ _
      | eintr => exact ih _ _ _
      | einval =>
        simp [xpwriteGo, xpwriteGo_true_truncs]
      | other => simp [xpwriteGo]

/-- C8: in the `_xpwrite` loop, over any trace of syscall outcomes, at most
one forward truncation is ever performed (and none once the `truncated` flag
is set); an `EINTR` merely retries the write; the first `EINVAL` performs
exactly one truncation of the store to the failing offset and retries; an
`EINVAL` after the truncation stops the loop with the store as it is.  The
result type carries no error component, matching the `void` return: no error
is ever reported to the caller. -/
theorem claim_C8 (o : List WriteStep) (f d : List Nat) (off : Nat) :
    (xpwriteGo o f d off false).2.length ≤ 1 ∧
    (xpwriteGo o f d off true).2 = [] ∧
    (d ≠ [] → ∀ t, xpwriteGo (WriteStep.eintr :: o) f d off t = xpwriteGo o f d off t) ∧
    (d ≠ [] → xpwriteGo (WriteStep.einval :: o) f d off false =
      ((xpwriteGo o (truncFile f off) d off true).1,
        off :: (xpwriteGo o (truncFile f off) d off true).2)) ∧
    (d ≠ [] → xpwriteGo (WriteStep.einval :: o) f d off true = (f, [])) := by
  refine ⟨xpwriteGo_truncs_le_one o f d off, xpwriteGo_true_truncs o f d off, ?_, ?_, ?_⟩
  · intro hd t
    obtain ⟨x, ds, rfl⟩ := List.exists_cons_of_ne_nil hd
    rfl
  · intro hd
    obtain ⟨x, ds, rfl⟩ := List.exists_cons_of_ne_nil hd
    simp [xpwriteGo]
  · intro hd
    obtain ⟨x, ds, rfl⟩ := List.exists_cons_of_ne_nil hd
    simp [xpwriteGo]

/-- Witness for C8 at a concrete nonempty buffer. -/
theorem claim_C8_witness :
    ([9, 9] : List Nat) ≠ [] ∧
    xpwriteGo [WriteStep.einval] [] [9, 9] 0 true = ([], []) :=
  ⟨by decide, (claim_C8 [] [] [9, 9] 0).2.2.2.2 (by decide)⟩

/-- Model of `_vte_file_stream_ensure_fd0` (src/vtestream-file.h:185)
including its failure mode: when `_vte_mkstemp` fails (`allocOk = false`) the
function returns with `fd[0]` still unset. -/
def ensure_fd0F (allocOk : Bool) (s : VteFileStream) : VteFileStream :=
  match s.fd0 with
  | some _ => s
  | none => if allocOk then { s with fd0 := some [] } else s

/-- Model of `_xpwrite` over a syscall-outcome trace, lifted to an optional
fd: with no fd nothing can be persisted; a negative (wrapped `gsize`) position
makes every `pwrite` and the rescue `_xtruncate` fail, leaving the contents
unchanged; otherwise the loop `xpwriteGo` runs. -/
def xpwriteF (o : List WriteStep) (fd : Option (List Nat)) (d : List Nat) (off : Int) :
    Option (List Nat) :=
  match fd with
  | none => none
  | some f => if off < 0 then some f else some (xpwriteGo o f d off.toNat false).1

/-- Model of `_vte_file_stream_append` (src/vtestream-file.h:211) including
both failure modes: store allocation may fail and the underlying write may
persist any number of bytes (driven by the syscall-outcome trace `o`).  The
source advances `head` by `len` unconditionally after the write. -/
def vte_file_stream_appendF (allocOk : Bool) (o : List WriteStep) (s : VteFileStream)
    (d : List Nat) : VteFileStream :=
  let s := ensure_fd0F allocOk s
  { s with fd0 := xpwriteF o s.fd0 d ((s.head : Int) - (s.offset0 : Int)),
           head := s.head + d.length }

/-- C10: append advances `head` by exactly the appended length in every state
and under every failure pattern — store allocation failed or the write
persisted fewer bytes included.  In particular, from a fresh stream whose
store cannot be allocated, appending two bytes yields `head = 2` with no store
at all, so `head` exceeds the number of bytes actually stored. -/
theorem claim_C10 :
    (∀ (allocOk : Bool) (o : List WriteStep) (s : VteFileStream) (d : List Nat),
      (vte_file_stream_appendF allocOk o s d).head = s.head + d.length) ∧
    (vte_file_stream_appendF false [] initStream [7, 7]).head = 2 ∧
    (vte_file_stream_appendF false [] initStream [7, 7]).fd0 = none := by
  refine ⟨?_, by decide, by decide⟩
  intro allocOk o s d
  cases hf : s.fd0 with
  | none => cases allocOk <;> simp [vte_file_stream_appendF, ensure_fd0F, hf]
  | some f => simp [vte_file_stream_appendF, ensure_fd0F, hf]

/-- Writing at exactly the end of a file appends. -/
lemma writeAt_length (f d : List Nat) : writeAt f d f.length = f ++ d := by
  simp [writeAt, List.take_length, List.drop_eq_nil_of_le (Nat.le_add_right f.length d.length)]

/-- State shape maintained by a block of appends after a reset to `base`:
both generation offsets sit at `base`, `head` is `base` plus the bytes
appended so far, and the current store holds exactly those bytes (or is still
unallocated when nothing was appended). -/
def AppendRunState (base : Nat) (acc : List Nat) (s : VteFileStream) : Prop :=
  s.offset1 = base ∧ s.offset0 = base ∧ s.head = base + acc.length ∧
  (s.fd0 = some acc ∨ (s.fd0 = none ∧ acc = []))

/-- A reset establishes the append-run state with no bytes. -/
lemma appendRunState_reset (s : VteFileStream) (base : Nat) :
    AppendRunState base [] (vte_file_stream_reset s base) := by
  refine ⟨rfl, rfl, by simp [vte_file_stream_reset], ?_⟩
  cases h : s.fd0 with
  | none => exact Or.inr ⟨by simp [vte_file_stream_reset, xtruncate, h], rfl⟩
  | some f =>
    exact Or.inl (by simp [vte_file_stream_reset, xtruncate, truncFile_zero, h])

/-- A successful write at exactly the end of a file appends to it. -/
lemma xpwrite_at_length (f d : List Nat) (off : Int) (hoff : off = (f.length : Int)) :
    xpwrite (some f) d off = some (f ++ d) := by
  subst hoff
  simp only [xpwrite]
  by_cases hd : d = []
  · rw [if_pos hd]
    simp [hd]
  · rw [if_neg hd, if_neg (not_lt.mpr (Int.natCast_nonneg f.length))]
    simp [writeAt_length]

/-- One append extends the accumulated bytes. -/
lemma appendRunState_append (base : Nat) (acc : List Nat) (s : VteFileStream)
    (h : AppendRunState base acc s) (d : List Nat) :
    AppendRunState base (acc ++ d) (vte_file_stream_append s d) := by
  obtain ⟨h1, h0, hh, hfd⟩ := h
  rcases hfd with hfd | ⟨hfd, rfl⟩
  · have he : vte_file_stream_ensure_fd0 s = s := by
      simp [vte_file_stream_ensure_fd0, hfd]
    refine ⟨?_, ?_, ?_, Or.inl ?_⟩ <;>
      simp only [vte_file_stream_append, he]
    · exact h1
    · exact h0
    · simp [hh]
      omega
    · show xpwrite s.fd0 d ((s.head : Int) - (s.offset0 : Int)) = some (acc ++ d)
      rw [hfd]
      refine xpwrite_at_length acc d _ ?_
      rw [hh, h0]
      push_cast
      ring
  · have he : vte_file_stream_ensure_fd0 s = { s with fd0 := some [] } := by
      simp [vte_file_stream_ensure_fd0, hfd]
    refine ⟨?_, ?_, ?_, Or.inl ?_⟩ <;>
      simp only [vte_file_stream_append, he]
    · exact h1
    · exact h0
    · simp [hh]
    · show xpwrite (some []) d ((s.head : Int) - (s.offset0 : Int)) = some ([] ++ d)
      refine xpwrite_at_length [] d _ ?_
      rw [hh, h0]
      push_cast
      ring

/-- A whole block of appends accumulates the concatenation of the blocks. -/
lemma appendRunState_foldl (ds : List (List Nat)) (base : Nat) (acc : List Nat)
    (s : VteFileStream) (h : AppendRunState base acc s) :
    AppendRunState base (acc ++ ds.flatten) (ds.foldl vte_file_stream_append s) := by
  induction ds generalizing s acc with
  | nil => simpa using h
  | cons d ds ih =>
    have h' := appendRunState_append base acc s h d
    have := ih (acc ++ d) (vte_file_stream_append s d) h'
    simpa [List.append_assoc] using this

/-- In an append-run state, reading the whole accumulated range from `base`
returns exactly the accumulated bytes. -/
lemma appendRunState_read (base : Nat) (acc : List Nat) (s : VteFileStream)
    (h : AppendRunState base acc s) :
    vte_file_stream_read s base acc.length = some acc := by
  obtain ⟨h1, h0, hh, hfd⟩ := h
  unfold vte_file_stream_read
  rw [h1, h0]
  rw [if_neg (lt_irrefl base), if_neg (lt_irrefl base)]
  have hoff : ((base : Int) - (base : Int)) = (0 : Int) := by ring
  rw [hoff]
  rcases hfd with hfd | ⟨hfd, rfl⟩
  · rw [hfd]
    simp [xpread, preadAll, List.take_length]
  · rw [hfd]
    simp [xpread]

/-- C1: for every sequence of appends `d1, …, dn` performed from a freshly
reset stream at base offset `base`, with no intervening rotate or truncate, a
subsequent `read(base, Σ len(di))` succeeds and returns exactly the
concatenation `d1 ‖ d2 ‖ … ‖ dn`. -/
theorem claim_C1 (s0 : VteFileStream) (base : Nat) (ds : List (List Nat)) :
    vte_file_stream_read (ds.foldl vte_file_stream_append (vte_file_stream_reset s0 base))
      base (ds.map List.length).sum = some ds.flatten := by
  have h := appendRunState_foldl ds base [] (vte_file_stream_reset s0 base)
    (appendRunState_reset s0 base)
  rw [List.nil_append] at h
  have hr := appendRunState_read base ds.flatten _ h
  rwa [show (ds.map List.length).sum = ds.flatten.length from (List.length_flatten ds).symm]

/-- A read at a wrapped (negative) position delivers nothing. -/
lemma xpread_neg (fd : Option (List Nat)) (off : Int) (len : Nat) (h : off < 0) :
    xpread fd off len = [] := by
  cases fd with
  | none => rfl
  | some f => simp [xpread, preadAll, h]

/-- When the truncation point is at or after the current generation's start
(and the invariant holds), only the current store and `head` change. -/
lemma truncate_keep (s : VteFileStream) (k : Nat) (h01 : s.offset1 ≤ s.offset0)
    (h0k : s.offset0 ≤ k) :
    vte_file_stream_truncate s k =
      { s with fd0 := xtruncate s.fd0 (k - s.offset0), head := k } := by
  simp only [vte_file_stream_truncate]
  rw [if_neg (show ¬ k < s.offset1 by omega)]
  rw [if_neg (show ¬ k < s.offset0 by omega)]

/-- Reads that stay inside `[offset[1], offset[0])` depend only on
`offset[1]`, `offset[0]` and the previous store — not on the current store or
`head`. -/
lemma read_congr (s t : VteFileStream) (e1 : s.offset1 = t.offset1)
    (e0 : s.offset0 = t.offset0) (ef : s.fd1 = t.fd1) (a l : Nat)
    (ha : t.offset1 ≤ a) (hl : a + l ≤ t.offset0) :
    vte_file_stream_read s a l = vte_file_stream_read t a l := by
  unfold vte_file_stream_read
  rw [e1, e0, ef]
  simp only [if_neg (show ¬ a < t.offset1 by omega)]
  by_cases hlt : a < t.offset0
  · simp only [if_pos hlt]
    by_cases hfill : l - (xpread t.fd1 ((a : Int) - (t.offset1 : Int)) l).length = 0
    · simp only [if_pos hfill]
    · simp only [if_neg hfill]
      have hlen := xpread_length_le t.fd1 ((a : Int) - (t.offset1 : Int)) l
      have hp : (((a + (xpread t.fd1 ((a : Int) - (t.offset1 : Int)) l).length : Nat) : Int)
          - (t.offset0 : Int)) < 0 := by
        have : a + (xpread t.fd1 ((a : Int) - (t.offset1 : Int)) l).length < t.offset0 := by
          omega
        push_cast
        omega
      rw [xpread_neg s.fd0 _ _ hp, xpread_neg t.fd0 _ _ hp]
  · simp only [if_neg hlt]
    have hl0 : l = 0 := by omega
    subst hl0
    rw [xpread_zero_len s.fd0, xpread_zero_len t.fd0]

/-- C6: in every reachable state, truncating to a point `k` at or after the
current generation's start (and at or below `head`) truncates only the
current store — to length `k - offset[0]` — and sets `head := k`; the two
generation-start offsets and the previous store handle are unchanged, and
every read of a range lying inside the previous generation returns the same
result as before the truncation. -/
theorem claim_C6 (ops : List VteOp) (k : Nat)
    (h0 : (run ops).offset0 ≤ k) (hh : k ≤ (run ops).head) :
    ((vte_file_stream_truncate (run ops) k).offset1 = (run ops).offset1 ∧
     (vte_file_stream_truncate (run ops) k).offset0 = (run ops).offset0 ∧
     (vte_file_stream_truncate (run ops) k).fd1 = (run ops).fd1 ∧
     (vte_file_stream_truncate (run ops) k).fd0 =
       xtruncate (run ops).fd0 (k - (run ops).offset0) ∧
     (vte_file_stream_truncate (run ops) k).head = k) ∧
    (∀ a l, (run ops).offset1 ≤ a → a + l ≤ (run ops).offset0 →
      vte_file_stream_read (vte_file_stream_truncate (run ops) k) a l =
        vte_file_stream_read (run ops) a l) := by
  obtain ⟨h1, h2⟩ := streamInv_run ops
  have heq := truncate_keep (run ops) k h1 h0
  constructor
  · rw [heq]
    exact ⟨rfl, rfl, rfl, rfl, rfl⟩
  · intro a l ha hl
    refine read_congr _ _ ?_ ?_ ?_ a l ha hl
    · rw [heq]
    · rw [heq]
    · rw [heq]

/-- The operation sequence used as the C6 witness: reach a two-generation
state with previous generation `[1,2,3]` over `[0,3)` and current generation
`[4,5]` over `[3,5)`. -/
def c6Ops : List VteOp :=
  [.reset 0, .append [1, 2, 3], .new_page, .append [4, 5]]

/-- Witness for C6 at the reachable two-generation state and `k = 4`. -/
theorem claim_C6_witness :
    (run c6Ops).offset0 ≤ 4 ∧ 4 ≤ (run c6Ops).head ∧
    (((vte_file_stream_truncate (run c6Ops) 4).offset1 = (run c6Ops).offset1 ∧
      (vte_file_stream_truncate (run c6Ops) 4).offset0 = (run c6Ops).offset0 ∧
      (vte_file_stream_truncate (run c6Ops) 4).fd1 = (run c6Ops).fd1 ∧
      (vte_file_stream_truncate (run c6Ops) 4).fd0 =
        xtruncate (run c6Ops).fd0 (4 - (run c6Ops).offset0) ∧
      (vte_file_stream_truncate (run c6Ops) 4).head = 4) ∧
     (∀ a l, (run c6Ops).offset1 ≤ a → a + l ≤ (run c6Ops).offset0 →
       vte_file_stream_read (vte_file_stream_truncate (run c6Ops) 4) a l =
         vte_file_stream_read (run c6Ops) a l)) :=
  ⟨by decide, by decide, claim_C6 c6Ops 4 (by decide) (by decide)⟩
